import Mathlib

/-!
Verification of the day-of-year program
(`src/lesson2-class-func/linyifan_day_of_year.cpp`).

The program reads three integers `y m d`, adjusts a global 15-entry month
table `int month[15] = {0,31,28,31,30,31,30,31,31,30,31,30,31}` for leap
years (`month[2] += 1` when `y%4==0 && (y%100>0 || y%400==0)`, with C++
truncating `%`), sums `month[1]` through `month[m-1]`, then adds
`month[m]` if `d >= month[m]` and `d` otherwise, and prints the sum.

The shallow embedding below mirrors the source: C++ `int` values become
`Int` (no intermediate value in the reachable cases can leave the 32-bit
range, so unbounded integers agree with the source on every representable
input), C++ truncating `%` becomes `Int.tmod`, and every array read
becomes an `Option`-returning bounds-checked access so that any
out-of-bounds read (undefined behavior in the source) surfaces as `none`.
-/

namespace DayOfYear

/-- The leap-year test of line 8 of the source:
`y%4==0 && (y%100>0 || y%400==0)`, with C++ truncating `%` (`Int.tmod`). -/
def isLeap (y : Int) : Bool :=
  decide (Int.tmod y 4 = 0 ∧ (0 < Int.tmod y 100 ∨ Int.tmod y 400 = 0))

/-- The global table `int month[15]={0,31,28,31,30,31,30,31,31,30,31,30,31}`
of line 4: 13 explicit initializers, the remaining two entries
value-initialized to `0`. -/
def baseTable : List Int :=
  [0, 31, 28, 31, 30, 31, 30, 31, 31, 30, 31, 30, 31, 0, 0]

/-- The month table as the program sees it after the leap adjustment of
line 9 (`month[2] += 1`). -/
def tableOf (y : Int) : List Int :=
  if isLeap y then baseTable.set 2 (28 + 1) else baseTable

/-- A read `month[i]` with an `int` index: `none` when the index leaves
the 15-entry array (undefined behavior in the source). -/
def monthAt (t : List Int) (i : Int) : Option Int :=
  if 0 ≤ i ∧ i.toNat < t.length then some (t.getD i.toNat 0) else none

/-- The summation loop of lines 11-13, `for(int i=1;i<m;i++) sum+=month[i];`,
by the number of iterations: `sumLoop t n` adds `month[1] … month[n]`. -/
def sumLoop (t : List Int) : Nat → Option Int
  | 0 => some 0
  | n + 1 => do
      let s ← sumLoop t n
      let v ← monthAt t ((n : Int) + 1)
      pure (s + v)

/-- Lines 11-18 of `main` for a given month table: the loop runs for
`i = 1, …, m-1` (that is, `(m-1).toNat` iterations), then the branch of
line 14 adds `month[m]` when `d >= month[m]` and `d` otherwise. -/
def computeT (t : List Int) (m d : Int) : Option Int := do
  let s ← sumLoop t (m - 1).toNat
  let len ← monthAt t m
  if d ≥ len then pure (s + len) else pure (s + d)

/-- The whole computation of `main` on the already-read integers
`(y, m, d)`: leap-adjust the table, then sum. `none` marks a run whose
array accesses leave the table (undefined behavior in the source). -/
def compute (y m d : Int) : Option Int :=
  computeT (tableOf y) m d

/-- `month[i]` as a plain value (used to state properties; in-range
accesses of `computeT` return exactly this). -/
def monthLenT (t : List Int) (i : Nat) : Int := t.getD i 0

/-- `sumTo t n = month[1] + … + month[n]`, the value the loop
accumulates. -/
def sumTo (t : List Int) : Nat → Int
  | 0 => 0
  | n + 1 => sumTo t n + monthLenT t (n + 1)

/-- The length the program's table assigns to month `m` of year `y`. -/
def monthLength (y m : Int) : Int := monthLenT (tableOf y) m.toNat

/-- The sum of the program's lengths of the months strictly before `m`. -/
def monthsBefore (y m : Int) : Int := sumTo (tableOf y) (m - 1).toNat

/-! ### Reference Gregorian calendar (from the specification's words)

These definitions are NOT taken from the source; they transcribe the
specification's description of the conventional calendar, to be compared
with the program: a year is a leap year iff it is divisible by 4 and
(not divisible by 100, or divisible by 400); month lengths are the
standard Gregorian ones with 29 for February in a leap year; the ordinal
day-of-year is the sum of the lengths of all months strictly before the
given month, plus the day. -/

/-- Reference (spec) leap-year predicate: divisibility in `ℤ`. -/
def refIsLeap (y : Int) : Bool :=
  decide ((4 : Int) ∣ y ∧ (¬ (100 : Int) ∣ y ∨ (400 : Int) ∣ y))

/-- Reference (spec) month lengths: standard Gregorian, 29 for February
in a leap year. -/
def refMonthLen (y m : Int) : Int :=
  [(31 : Int), if refIsLeap y then 29 else 28,
   31, 30, 31, 30, 31, 31, 30, 31, 30, 31].getD (m - 1).toNat 0

/-- Reference sum of the lengths of months `1 … n`. -/
def refSumTo (y : Int) : Nat → Int
  | 0 => 0
  | n + 1 => refSumTo y n + refMonthLen y ((n : Int) + 1)

/-- Reference (spec) ordinal day-of-year: lengths of all months strictly
before `m`, plus `d`. -/
def refDayOfYear (y m d : Int) : Int := refSumTo y (m - 1).toNat + d

/-! ### Bridge lemmas: evaluating the embedded program -/

/-- The leap adjustment, evaluated: the table is one of two concrete
15-entry lists, selected by `isLeap`. -/
theorem tableOf_eq (y : Int) :
    tableOf y =
      if isLeap y then [0, 31, 29, 31, 30, 31, 30, 31, 31, 30, 31, 30, 31, 0, 0]
      else baseTable := by
  unfold tableOf
  cases h : isLeap y <;> simp [h] <;> rfl

/-- The month table always has its declared 15 entries. -/
theorem length_tableOf (y : Int) : (tableOf y).length = 15 := by
  rw [tableOf_eq]; cases isLeap y <;> simp <;> rfl

/-- The summation loop never goes out of bounds while its last index is
inside the table, and it computes the running sum `sumTo`. -/
theorem sumLoop_eq (t : List Int) (n : Nat) (h : n < t.length) :
    sumLoop t n = some (sumTo t n) := by
  induction n with
  | zero => rfl
  | succ k ih =>
      have hk : k < t.length := Nat.lt_of_succ_lt h
      have hidx : ((k : Int) + 1).toNat < t.length := by omega
      have htn : ((k : Int) + 1).toNat = k + 1 := by omega
      simp only [sumLoop, ih hk, monthAt, Option.bind_eq_bind, Option.some_bind,
        Option.pure_def]
      rw [if_pos ⟨by omega, hidx⟩]
      simp [sumTo, monthLenT, htn]

/-- For every month index the program can reach without leaving the
table (`0 ≤ m ≤ 14`), the whole run is defined and equals the branch of
line 14 applied to the table sums. -/
theorem compute_eq (y m d : Int) (h0 : 0 ≤ m) (h14 : m ≤ 14) :
    compute y m d =
      some (if monthLength y m ≤ d then monthsBefore y m + monthLength y m
            else monthsBefore y m + d) := by
  have hlen := length_tableOf y
  have hloop : ((m - 1).toNat) < (tableOf y).length := by omega
  have hm : m.toNat < (tableOf y).length := by omega
  unfold compute computeT
  rw [sumLoop_eq _ _ hloop]
  simp only [monthAt]
  rw [if_pos ⟨h0, hm⟩]
  simp only [Option.bind_eq_bind, Option.some_bind, Option.pure_def, ge_iff_le,
    monthLength, monthsBefore, monthLenT]
  split <;> rfl

/-- On nonnegative years, the truncating-remainder test of the source
agrees with the reference divisibility predicate. -/
theorem isLeap_eq_refIsLeap (y : Int) (hy : 0 ≤ y) : isLeap y = refIsLeap y := by
  unfold isLeap refIsLeap
  rw [decide_eq_decide]
  rw [Int.tmod_eq_emod hy (by norm_num), Int.tmod_eq_emod hy (by norm_num),
    Int.tmod_eq_emod hy (by norm_num)]
  omega

/-- When the two leap predicates agree on `y`, the program's table holds
the reference month lengths on months `1 … 12`. -/
theorem monthLength_eq_ref (y m : Int) (hleap : isLeap y = refIsLeap y)
    (h1 : 1 ≤ m) (h2 : m ≤ 12) : monthLength y m = refMonthLen y m := by
  interval_cases m <;>
    simp only [monthLength, monthLenT, tableOf_eq, hleap, refMonthLen] <;>
    cases h : refIsLeap y <;> simp [h, baseTable] <;> decide

/-- Every real month has at least 28 days in the program's table. -/
theorem monthLength_ge_28 (y m : Int) (h1 : 1 ≤ m) (h2 : m ≤ 12) :
    28 ≤ monthLength y m := by
  interval_cases m <;>
    simp only [monthLength, monthLenT, tableOf_eq] <;>
    cases h : isLeap y <;> simp [h, baseTable] <;> decide

/-- When the two leap predicates agree on `y`, the running sums of the
program's table and of the reference lengths agree up to month 12. -/
theorem sumTo_eq_ref (y : Int) (hleap : isLeap y = refIsLeap y) (n : Nat)
    (hn : n ≤ 12) : sumTo (tableOf y) n = refSumTo y n := by
  induction n with
  | zero => rfl
  | succ k ih =>
      have hlen : monthLength y ((k : Int) + 1) = refMonthLen y ((k : Int) + 1) :=
        monthLength_eq_ref y ((k : Int) + 1) hleap (by omega) (by omega)
      have htn : ((k : Int) + 1).toNat = k + 1 := by omega
      simp only [monthLength, htn] at hlen
      simp only [sumTo, refSumTo, ih (by omega), hlen]

/-- The program's sum of the months strictly before `m` equals the
reference sum, for real months, when the leap predicates agree. -/
theorem monthsBefore_eq_ref (y m : Int) (hleap : isLeap y = refIsLeap y)
    (h1 : 1 ≤ m) (h2 : m ≤ 12) :
    monthsBefore y m = refSumTo y (m - 1).toNat := by
  exact sumTo_eq_ref y hleap (m - 1).toNat (by omega)

/-- The table sums of all twelve months: 365 days, 366 in a leap year of
the program's predicate. -/
theorem sumTo_twelve (y : Int) :
    sumTo (tableOf y) 12 = (if isLeap y then 366 else 365) := by
  rw [tableOf_eq]
  cases h : isLeap y <;> simp [h] <;> decide

/-- The two trailing zero entries of the table. -/
theorem monthLength_past_twelve (y : Int) :
    monthLength y 13 = 0 ∧ monthLength y 14 = 0 := by
  rw [monthLength, monthLength, tableOf_eq]
  cases h : isLeap y <;> simp [h] <;> decide

/-! ### The claims -/

/-- C1 (corrected): the original claim quantifies over every year, but
the source's leap test `y%100>0` (truncating `%`) disagrees with the
conventional divisibility rule on negative years. On year `-4`
(conventionally a leap year, so February 29 is a valid reference date)
the program treats February as having 28 days and returns 59 instead of
the conventional ordinal 60. -/
theorem compute_ne_reference_neg_year :
    ((1 : Int) ≤ 2 ∧ (2 : Int) ≤ 12 ∧ (1 : Int) ≤ 29 ∧
      (29 : Int) ≤ refMonthLen (-4) 2) ∧
    compute (-4) 2 29 ≠ some (refDayOfYear (-4) 2 29) := by
  constructor
  · exact ⟨by decide, by decide, by decide, by decide⟩
  · decide

/-- C1 (amended): restricted to nonnegative years — where the source's
truncating-remainder leap test coincides with the conventional rule —
every valid date `(y, m, d)` with `1 ≤ m ≤ 12` and
`1 ≤ d ≤ refMonthLen y m` is mapped to the conventional ordinal
day-of-year, the sum of the reference lengths of all months strictly
before `m` plus `d`. -/
theorem compute_matches_reference (y m d : Int) (hy : 0 ≤ y)
    (h1 : 1 ≤ m) (h2 : m ≤ 12) (hd1 : 1 ≤ d) (hd2 : d ≤ refMonthLen y m) :
    compute y m d = some (refDayOfYear y m d) := by
  have hleap := isLeap_eq_refIsLeap y hy
  have hlen := monthLength_eq_ref y m hleap h1 h2
  have hpre := monthsBefore_eq_ref y m hleap h1 h2
  rw [compute_eq y m d (by omega) (by omega), refDayOfYear, ← hpre, hlen]
  split
  · have hd : d = refMonthLen y m := le_antisymm hd2 (by assumption)
    rw [hd]
  · rfl

/-- C1 witness: February 29 of the leap year 2024 is day 60. -/
theorem compute_matches_reference_witness :
    compute 2024 2 29 = some (refDayOfYear 2024 2 29) :=
  compute_matches_reference 2024 2 29 (by decide) (by decide) (by decide)
    (by decide) (by decide)

/-- C2 (corrected): the original claim states the leap condition with
`year % 100 != 0`; the source tests `y%100>0`. With C++ truncating `%`
these differ on negative years: at `y = -4` the claimed condition holds
(`-4 % 4 = 0` and `-4 % 100 = -4 ≠ 0`) yet the program keeps February
at 28 days. -/
theorem leap_claim_fails_neg_year :
    ¬ ((monthLength (-4) 2 = 29) ↔
        (Int.tmod (-4) 4 = 0 ∧
          (Int.tmod (-4) 100 ≠ 0 ∨ Int.tmod (-4) 400 = 0))) := by
  decide

/-- C2 (amended): the program uses 29 days for February exactly when
`y % 4 == 0 AND (y % 100 > 0 OR y % 400 == 0)`, with `%` the truncating
remainder — i.e. with `> 0` in place of the claimed `!= 0` (the two
agree on all nonnegative years). -/
theorem leap_february_iff (y : Int) :
    monthLength y 2 = 29 ↔
      (Int.tmod y 4 = 0 ∧ (0 < Int.tmod y 100 ∨ Int.tmod y 400 = 0)) := by
  have htab : monthLength y 2 = (if isLeap y then 29 else 28) := by
    rw [monthLength, tableOf_eq]
    cases h : isLeap y <;> simp [h] <;> decide
  rw [htab]
  unfold isLeap
  cases h : decide (Int.tmod y 4 = 0 ∧ (0 < Int.tmod y 100 ∨ Int.tmod y 400 = 0))
  · simp [of_decide_eq_false h]
  · simp [of_decide_eq_true h]

/-- C2 witness: 2024 gets a 29-day February. -/
theorem leap_february_iff_witness : monthLength 2024 2 = 29 :=
  (leap_february_iff 2024).mpr (by decide)

/-- C3 (corrected): the original claim says a day below 1 is clamped to
the month's last day. It is not: `d >= month[m]` fails for any `d < 1`
(a real month has at least 28 days), so the program adds `d` itself;
at `(2023, 1, 0)` the program returns 0, not 31. -/
theorem day_below_one_not_clamped :
    compute 2023 1 0 = some 0 ∧
    monthsBefore 2023 1 + monthLength 2023 1 = 31 ∧
    compute 2023 1 0 ≠ some (monthsBefore 2023 1 + monthLength 2023 1) := by
  refine ⟨by decide, by decide, by decide⟩

/-- C3 (amended): for `day < 1` (and a real month `1 ≤ m ≤ 12`) the
program does not clamp: it takes the non-overflow branch and adds `day`
itself, returning the sum of the lengths of the months before `m` plus
`day`. -/
theorem day_below_one_adds_day (y m d : Int) (h1 : 1 ≤ m) (h2 : m ≤ 12)
    (hd : d < 1) : compute y m d = some (monthsBefore y m + d) := by
  have h28 := monthLength_ge_28 y m h1 h2
  rw [compute_eq y m d (by omega) (by omega), if_neg (by omega)]

/-- C3 witness: day 0 of January 2023 yields 0. -/
theorem day_below_one_adds_day_witness :
    compute 2023 1 0 = some (monthsBefore 2023 1 + 0) :=
  day_below_one_adds_day 2023 1 0 (by decide) (by decide) (by decide)

/-- C4 (confirmed): when `day` strictly exceeds the month's table
length, the overflow branch adds the full month length, so the result is
the sum of the months before `m` plus the length of `m` — the same value
the program returns for the month's last day — and in particular
`compute 2023 1 300 = 31`. -/
theorem day_overflow_clamps :
    (∀ y m d : Int, 1 ≤ m → m ≤ 12 → monthLength y m < d →
      compute y m d = some (monthsBefore y m + monthLength y m) ∧
      compute y m d = compute y m (monthLength y m)) ∧
    compute 2023 1 300 = some 31 := by
  constructor
  · intro y m d h1 h2 hd
    have he := compute_eq y m d (by omega) (by omega)
    have hl := compute_eq y m (monthLength y m) (by omega) (by omega)
    rw [if_pos (le_of_lt hd)] at he
    rw [if_pos le_rfl] at hl
    exact ⟨he, he.trans hl.symm⟩
  · decide

/-- C4 witness: day 300 of January 2023 is clamped to January's value. -/
theorem day_overflow_clamps_witness :
    compute 2023 1 300 = some (monthsBefore 2023 1 + monthLength 2023 1) :=
  (day_overflow_clamps.1 2023 1 300 (by decide) (by decide) (by decide)).1

/-- C5 (confirmed): when `day` equals the month's table length exactly,
`d >= month[m]` holds, so the overflow branch runs and adds the month
length — which equals `day`, so the returned value is still the sum of
the months before `m` plus that last `day`; in particular
`compute 2023 1 31 = 31`. -/
theorem exact_boundary_overflow :
    (∀ y m : Int, 1 ≤ m → m ≤ 12 →
      compute y m (monthLength y m) =
        some (monthsBefore y m + monthLength y m)) ∧
    compute 2023 1 31 = some 31 := by
  constructor
  · intro y m h1 h2
    rw [compute_eq y m (monthLength y m) (by omega) (by omega), if_pos le_rfl]
  · decide

/-- C5 witness: the last day of January 2023. -/
theorem exact_boundary_overflow_witness :
    compute 2023 1 (monthLength 2023 1) =
      some (monthsBefore 2023 1 + monthLength 2023 1) :=
  exact_boundary_overflow.1 2023 1 (by decide) (by decide)

/-- C6 (confirmed): the three landmark dates of the specification:
March 1 of leap 2024 is day 61, December 31 is day 365 in 2023 and 366
in 2024. -/
theorem landmark_dates :
    compute 2024 3 1 = some 61 ∧
    compute 2023 12 31 = some 365 ∧
    compute 2024 12 31 = some 366 :=
  ⟨by decide, by decide, by decide⟩

/-- C7 (confirmed): the computation is a pure function of its three
inputs — the embedding has no other state, so two runs on the same
input are the same term and produce the same output. -/
theorem compute_deterministic : ∀ y m d : Int, compute y m d = compute y m d :=
  fun _ _ _ => rfl

/-- C8 (confirmed): after the leap adjustment the table is exactly the
non-leap lengths `[31,28,31,30,31,30,31,31,30,31,30,31]` at indices
1-12 except that index 2 (February) is 29 precisely when the source's
leap test accepts `y`; entries 0, 13 and 14 are 0. The table is a pure
value of `y`: nothing in the embedded run (`computeT` only reads it)
changes any entry afterwards. -/
theorem table_after_adjustment (y : Int) :
    tableOf y =
      [0, 31, if isLeap y then (29 : Int) else 28,
       31, 30, 31, 30, 31, 31, 30, 31, 30, 31, 0, 0] := by
  rw [tableOf_eq]
  cases h : isLeap y <;> simp [h, baseTable]

/-- C9 (confirmed): for month 13 or 14 every table access of the run
stays inside the 15-entry array, so the result is defined (`some`, the
`none` branch of the bounds-checked accesses is never taken), and for
any `d ≥ 0` the zero entries past December make the result the year's
total: 366 under the source's leap test, else 365. -/
theorem month_13_14_defined_total (y d : Int) (hd : 0 ≤ d) :
    compute y 13 d = some (if isLeap y then 366 else 365) ∧
    compute y 14 d = some (if isLeap y then 366 else 365) := by
  obtain ⟨hl13, hl14⟩ := monthLength_past_twelve y
  have hp13 : monthsBefore y 13 = (if isLeap y then 366 else 365) := by
    show sumTo (tableOf y) 12 = _
    exact sumTo_twelve y
  have hstep : sumTo (tableOf y) 13 =
      sumTo (tableOf y) 12 + monthLenT (tableOf y) 13 := rfl
  have hz : monthLenT (tableOf y) 13 = 0 := hl13
  have hp14 : monthsBefore y 14 = (if isLeap y then 366 else 365) := by
    show sumTo (tableOf y) 13 = _
    rw [hstep, hz, add_zero]
    exact sumTo_twelve y
  constructor
  · rw [compute_eq y 13 d (by decide) (by decide), hl13, hp13, if_pos hd,
      add_zero]
  · rw [compute_eq y 14 d (by decide) (by decide), hl14, hp14, if_pos hd,
      add_zero]

/-- C9 witness: month 13 and month 14 of the leap year 2024 both yield
the 366-day total on day 0. -/
theorem month_13_14_witness :
    compute 2024 13 0 = some (if isLeap 2024 then 366 else 365) ∧
    compute 2024 14 0 = some (if isLeap 2024 then 366 else 365) :=
  month_13_14_defined_total 2024 0 (by decide)

/-- C10 (confirmed): for a fixed year and real month the result is
monotone nondecreasing in the day, grows by exactly 1 per day while the
day is below the month's table length, and is constant — equal to the
last day's result — from the month's length upward. -/
theorem monotone_in_day :
    ∀ y m : Int, 1 ≤ m → m ≤ 12 →
      (∀ d e a b : Int, d ≤ e → compute y m d = some a →
        compute y m e = some b → a ≤ b) ∧
      (∀ d : Int, d < monthLength y m →
        compute y m (d + 1) = Option.map (fun x => x + 1) (compute y m d)) ∧
      (∀ d : Int, monthLength y m ≤ d →
        compute y m d = compute y m (monthLength y m)) := by
  intro y m h1 h2
  have key : ∀ d : Int, compute y m d =
      some (if monthLength y m ≤ d then monthsBefore y m + monthLength y m
            else monthsBefore y m + d) :=
    fun d => compute_eq y m d (by omega) (by omega)
  refine ⟨?_, ?_, ?_⟩
  · intro d e a b hde ha hb
    rw [key d] at ha
    rw [key e] at hb
    simp only [Option.some.injEq] at ha hb
    subst ha
    subst hb
    split_ifs <;> omega
  · intro d hd
    rw [key (d + 1), key d]
    simp only [Option.map_some', Option.some.injEq]
    split_ifs <;> omega
  · intro d hd
    rw [key d, key (monthLength y m), if_pos hd, if_pos le_rfl]

/-- C10 witness: going from day 4 to day 5 of January 2023 adds one. -/
theorem monotone_in_day_witness :
    compute 2023 1 (4 + 1) = Option.map (fun x => x + 1) (compute 2023 1 4) :=
  (monotone_in_day 2023 1 (by decide) (by decide)).2.1 4 (by decide)

end DayOfYear
